import Mathlib

/-!
Shallow embedding of `src/src/autolib/__init__.py` (the `autolib` module of
m-horky/autocli): the `Parsed` draft, the `_Section` grammar states, and the
three operations `AutoTool.parse`, `AutoTool.verify` and `AutoTool.complete`.

Python `dict[str, str]` values are modelled as association lists in insertion
order (a key is unique; updating an existing key keeps its position).  Python
exceptions are modelled with `Except`: `ParseError`/`ValidationError` become
error values of `parse`/`verify`, and the exceptions that can escape
`AutoTool.complete` (the `RuntimeError` on line 295 and `KeyError` from
subscripting `self.specification["paths"]`) become error values of `complete`.

String helpers are defined over `String.data` (lists of characters) so that
every definition evaluates inside the kernel.  Tokens and contract texts in
this development are ASCII, matching the source's use of `str.lower`/`upper`.
-/

namespace Autolib

/-- Character-list le: lexicographic comparison by code point, the order
Python's `sorted` uses on strings. -/
def charsLe : List Char → List Char → Bool
  | [], _ => true
  | _ :: _, [] => false
  | a :: as, b :: bs =>
    if a.toNat < b.toNat then true
    else if b.toNat < a.toNat then false
    else charsLe as bs

/-- String le by code points (Python string ordering). -/
def strLe (s t : String) : Bool := charsLe s.data t.data

/-- Insert a string into a sorted list. -/
def insertStr (s : String) : List String → List String
  | [] => [s]
  | t :: ts => if strLe s t then s :: t :: ts else t :: insertStr s ts

/-- Models Python `sorted` over strings. -/
def sortStrs : List String → List String
  | [] => []
  | s :: ss => insertStr s (sortStrs ss)

/-- Remove duplicates (the set part of Python `sorted(set(...))`). -/
def dedupStr : List String → List String
  | [] => []
  | s :: rest => s :: (dedupStr rest).filter (fun t => t != s)

/-- Models Python `tuple(sorted(set(l)))` for a list of strings. -/
def sortedDedup (l : List String) : List String := sortStrs (dedupStr l)

/-- Is the pattern list a prefix of the second list. -/
def pfxChars : List Char → List Char → Bool
  | [], _ => true
  | _ :: _, [] => false
  | p :: ps, c :: cs => p == c && pfxChars ps cs

/-- Models Python `s.startswith(pre)`. -/
def strStartsWith (s pre : String) : Bool := pfxChars pre.data s.data

/-- Models Python `s.removeprefix(pre)`. -/
def removePfx (s pre : String) : String :=
  if strStartsWith s pre then String.mk (s.data.drop pre.data.length) else s

/-- Models Python `"=" in s`. -/
def containsEq (s : String) : Bool := s.data.contains '='

/-- Characters before / after the first `=`. -/
def splitEqChars : List Char → List Char × List Char
  | [] => ([], [])
  | c :: cs =>
    if c = '=' then ([], cs)
    else
      let r := splitEqChars cs
      (c :: r.1, r.2)

/-- Models Python `s.split("=", 1)` (only used when `s` contains `=`),
returning the pair (key, value). -/
def splitEq (s : String) : String × String :=
  let r := splitEqChars s.data
  (String.mk r.1, String.mk r.2)

/-- ASCII lower-casing of one character (models `str.lower` on the ASCII
tokens this tool handles). -/
def charLower (c : Char) : Char :=
  if 65 ≤ c.toNat ∧ c.toNat ≤ 90 then Char.ofNat (c.toNat + 32) else c

/-- Models Python `s.lower()` for ASCII strings. -/
def strLower (s : String) : String := String.mk (s.data.map charLower)

/-- ASCII upper-casing of one character. -/
def charUpper (c : Char) : Char :=
  if 97 ≤ c.toNat ∧ c.toNat ≤ 122 then Char.ofNat (c.toNat - 32) else c

/-- Models Python `s.upper()` for ASCII strings. -/
def strUpper (s : String) : String := String.mk (s.data.map charUpper)

/-- Models Python `"/".join(args)`. -/
def joinSlash : List String → String
  | [] => ""
  | [s] => s
  | s :: rest => s ++ "/" ++ joinSlash rest

/-- Models Python `w.split("/", 1)[0]`: the part before the first slash. -/
def takeUntilSlash : List Char → List Char
  | [] => []
  | c :: cs => if c = '/' then [] else c :: takeUntilSlash cs

/-- First path segment of a string. -/
def firstSeg (s : String) : String := String.mk (takeUntilSlash s.data)

/-- Models Python `w[1:-1]` for the brace-stripping of `{var}` segments. -/
def stripBraces (w : String) : String := String.mk ((w.data.drop 1).dropLast)

/-- Does the string end with a closing brace (Python `w.endswith("\x7d")`). -/
def endsWithBrace (w : String) : Bool :=
  match w.data.getLast? with
  | some c => c = '}'
  | none => false

/-- A parameter record of the contract: the dict
`\x7b"name": str, "in": str, "required": bool\x7d`.  The JSON key `in` is a
Lean keyword, so the field is called `location`. -/
structure Param where
  name : String
  location : String
  required : Bool
deriving DecidableEq

/-- The loaded contract (`AutoTool.specification`):
`\x7b"paths": \x7bpath: \x7bmethod: \x7b"parameters": [...]\x7d\x7d\x7d\x7d`.
A method maps directly to its parameter list. -/
structure Spec where
  paths : List (String × List (String × List Param))
deriving DecidableEq

/-- Python dict lookup `l[k]` as an association-list lookup (first binding
wins; dict keys are unique). -/
def lookupStr {β : Type} : List (String × β) → String → Option β
  | [], _ => none
  | (a, b) :: rest, k => if a = k then some b else lookupStr rest k

/-- Models Python `d.keys()` in insertion order. -/
def keysOf {β : Type} (l : List (String × β)) : List String := l.map Prod.fst

/-- Models Python `d[k] = v` on a dict: update in place if the key exists,
append otherwise. -/
def updateAssoc (l : List (String × String)) (k v : String) :
    List (String × String) :=
  if (keysOf l).contains k then
    l.map (fun p => if p.1 = k then (p.1, v) else p)
  else l ++ [(k, v)]

/-- The grammar states, the `_Section` enum (lines 16-24).  Note the source
has no FLAG state: an unrecognized token in ARGS raises (strict) or stops the
loop (lenient). -/
inductive Sect where
  | PATH
  | ARGS
  | METHOD
  | HEADER_KEY
  | HEADER_VALUE
  | QUERY_KEY
  | QUERY_VALUE
  | DATA
deriving DecidableEq

/-- The request draft `Parsed` (lines 27-41). -/
structure Parsed where
  path : String
  path_variables : List (String × String)
  method : String
  headers : List (String × String)
  queries : List (String × String)
  data : String
deriving DecidableEq

/-- The fresh draft built by `Parsed.__init__`. -/
def Parsed.empty : Parsed := ⟨"", [], "", [], [], ""⟩

/-- The two `ParseError` raises of `AutoTool.parse` (lines 85 and 98). -/
inductive ParseErr where
  | unexpected (arg : String)
  | methodTwice
deriving DecidableEq

/-- The `if section == _Section.PATH and arg.startswith("-")` promotion at
the top of both loops (lines 69-70 and 196-197). -/
def promote (sec : Sect) (a : String) : Sect :=
  match sec with
  | .PATH => if strStartsWith a "-" then .ARGS else .PATH
  | s => s

/-- One iteration of the strict `AutoTool.parse` loop (lines 68-128) on the
machine state (section, key, result). -/
def parseStep (st : Sect × String × Parsed) (a : String) :
    Except ParseErr (Sect × String × Parsed) :=
  let key := st.2.1
  let r := st.2.2
  match promote st.1 a with
  | .ARGS =>
    if a = "-X" then .ok (Sect.METHOD, key, r)
    else if a = "-H" then .ok (Sect.HEADER_KEY, key, r)
    else if a = "-Q" then .ok (Sect.QUERY_KEY, key, r)
    else if a = "-D" then .ok (Sect.DATA, key, r)
    else .error (.unexpected a)
  | .PATH =>
    if containsEq a then
      let kv := splitEq a
      .ok (Sect.PATH, kv.1,
        { r with path := r.path ++ "/\x7b" ++ kv.1 ++ "\x7d",
                 path_variables := updateAssoc r.path_variables kv.1 kv.2 })
    else .ok (Sect.PATH, key, { r with path := r.path ++ "/" ++ a })
  | .METHOD =>
    if r.method ≠ "" then .error .methodTwice
    else .ok (Sect.ARGS, key, { r with method := strLower a })
  | .HEADER_KEY =>
    .ok (Sect.HEADER_VALUE, a, { r with headers := updateAssoc r.headers a "" })
  | .HEADER_VALUE =>
    .ok (Sect.ARGS, key, { r with headers := updateAssoc r.headers key a })
  | .QUERY_KEY =>
    .ok (Sect.QUERY_VALUE, a, { r with queries := updateAssoc r.queries a "" })
  | .QUERY_VALUE =>
    .ok (Sect.ARGS, key, { r with queries := updateAssoc r.queries key a })
  | .DATA =>
    .ok (Sect.ARGS, key, { r with data := a })

/-- Run the strict loop over a token list, returning the final machine state
or the first `ParseError`. -/
def runAux (st : Sect × String × Parsed) :
    List String → Except ParseErr (Sect × String × Parsed)
  | [] => .ok st
  | a :: rest =>
    match parseStep st a with
    | .error e => .error e
    | .ok st2 => runAux st2 rest

/-- Models `AutoTool.parse` (lines 63-130): strict parsing of a token list. -/
def parse (args : List String) : Except ParseErr Parsed :=
  match runAux (Sect.PATH, "", Parsed.empty) args with
  | .error e => .error e
  | .ok st => .ok st.2.2

/-- Is the token one of the four recognized flags of the ARGS state. -/
def flagToken (a : String) : Bool :=
  a == "-X" || a == "-H" || a == "-Q" || a == "-D"

/-- A token is bad for strict parsing at a machine state when, at the point
it is consumed, it is an unrecognized token in the ARGS state or it would set
the method while the method is already non-empty. -/
def badAt (st : Sect × String × Parsed) (a : String) : Bool :=
  match promote st.1 a with
  | .ARGS => !flagToken a
  | .METHOD => st.2.2.method != ""
  | _ => false

/-- The `ValidationError` raises of `AutoTool.verify` (lines 132-187), in
source order: invalid path (134), undefined method (138), undeclared header
(153), undeclared query (165), missing required header/query parameter (180),
missing body data (185).  The source performs no path-variable check and no
dedicated empty-method check. -/
inductive VErr where
  | pathInvalid (p : String)
  | methodNotDefined (p m : String)
  | headerNotTaken (k : String)
  | queryNotTaken (k : String)
  | requiredMissing (loc name : String)
  | noData
deriving DecidableEq

/-- Is the key declared as a parameter with the given location for the
resolved method (the membership tested by the comprehensions on lines
147-151 and 159-163). -/
def declaredAs (params : List Param) (loc k : String) : Bool :=
  params.any (fun p => p.name == k && p.location == loc)

/-- The required-parameter loop of `verify` (lines 170-185): for each
parameter in declaration order, a required header/query missing from the
draft raises, then a required body parameter with unset data raises. -/
def requiredCheck : List Param → Parsed → Except VErr Unit
  | [], _ => .ok ()
  | p :: ps, parsed =>
    if p.required &&
        ((p.location == "header" && !((keysOf parsed.headers).contains p.name))
          || (p.location == "query" && !((keysOf parsed.queries).contains p.name))) then
      .error (.requiredMissing p.location p.name)
    else if p.required && p.location == "body" && parsed.data == "" then
      .error .noData
    else requiredCheck ps parsed

/-- Models `AutoTool.verify` (lines 132-187). -/
def verify (spec : Spec) (parsed : Parsed) : Except VErr Unit :=
  match lookupStr spec.paths parsed.path with
  | none => .error (.pathInvalid parsed.path)
  | some pathItem =>
    match lookupStr pathItem parsed.method with
    | none => .error (.methodNotDefined parsed.path parsed.method)
    | some params =>
      match (keysOf parsed.headers).find?
          (fun k => !declaredAs params "header" k) with
      | some k => .error (.headerNotTaken k)
      | none =>
        match (keysOf parsed.queries).find?
            (fun k => !declaredAs params "query" k) with
        | some k => .error (.queryNotTaken k)
        | none => requiredCheck params parsed

/-- The exceptions that can escape `AutoTool.complete`: the explicit
`RuntimeError` on line 295 (and the unreachable one on line 393), and the
`KeyError` from subscripting the specification with an unknown path or
method. -/
inductive CompErr where
  | runtime
  | keyErr (k : String)
deriving DecidableEq

/-- What `AutoTool.complete` returns when it does not raise: normally a tuple
of strings; the branch on line 324 returns a bare string (it reads
`return (f"-X ...")` with no trailing comma). -/
inductive CompOut where
  | tup (l : List String)
  | single (s : String)
deriving DecidableEq

/-- Python `==` between a `str` and a parameter dict is always `False`; the
source compares tokens with parameter dicts on lines 307, 314, 355 and 375. -/
def strEqParam (_ : String) (_ : Param) : Bool := false

/-- The lenient parsing loop of `AutoTool.complete` (lines 189-253).  It is
the strict loop except that an unrecognized ARGS token stops the loop (line
212) and METHOD overwrites without error (line 224).  Returns the stop
section, the last captured key, the last examined token, and the draft. -/
def lenientLoop (sec : Sect) (key arg : String) (d : Parsed) :
    List String → Sect × String × String × Parsed
  | [] => (sec, key, arg, d)
  | a :: rest =>
    match promote sec a with
    | .ARGS =>
      if a = "-X" then lenientLoop Sect.METHOD key a d rest
      else if a = "-H" then lenientLoop Sect.HEADER_KEY key a d rest
      else if a = "-Q" then lenientLoop Sect.QUERY_KEY key a d rest
      else if a = "-D" then lenientLoop Sect.DATA key a d rest
      else (Sect.ARGS, key, a, d)
    | .PATH =>
      if containsEq a then
        let kv := splitEq a
        lenientLoop Sect.PATH kv.1 a
          { d with path := d.path ++ "/\x7b" ++ kv.1 ++ "\x7d",
                   path_variables := updateAssoc d.path_variables kv.1 kv.2 } rest
      else lenientLoop Sect.PATH key a { d with path := d.path ++ "/" ++ a } rest
    | .METHOD =>
      lenientLoop Sect.ARGS key a { d with method := strLower a } rest
    | .HEADER_KEY =>
      lenientLoop Sect.HEADER_VALUE a a
        { d with headers := updateAssoc d.headers a "" } rest
    | .HEADER_VALUE =>
      lenientLoop Sect.ARGS key a
        { d with headers := updateAssoc d.headers key a } rest
    | .QUERY_KEY =>
      lenientLoop Sect.QUERY_VALUE a a
        { d with queries := updateAssoc d.queries a "" } rest
    | .QUERY_VALUE =>
      lenientLoop Sect.ARGS key a
        { d with queries := updateAssoc d.queries key a } rest
    | .DATA =>
      lenientLoop Sect.ARGS key a { d with data := a } rest

/-- The PATH branch of `complete` (lines 255-295).  Raises `RuntimeError`
when no contract path yields a continuation (line 295). -/
def completePath (spec : Spec) (args : List String) (arg : String)
    (d : Parsed) : Except CompErr CompOut :=
  let current_path := "/" ++ joinSlash args
  let path_continuations :=
    (keysOf spec.paths).filter (fun p => strStartsWith p d.path)
  let cut := path_continuations.map (fun p => removePfx p current_path)
  let same_words := cut.filter (fun c => !(strStartsWith c "/"))
  let next_words :=
    (cut.filter (fun c => strStartsWith c "/")).map (fun c => removePfx c "/")
  if same_words ≠ [] then
    .ok (.tup (sortedDedup (same_words.map (fun w => arg ++ firstSeg w))))
  else if next_words ≠ [] then
    .ok (.tup (sortedDedup (next_words.map (fun w =>
      let w2 := firstSeg w
      if strStartsWith w2 "\x7b" && endsWithBrace w2 then
        stripBraces w2 ++ "="
      else w2))))
  else .error .runtime

/-- The ARGS pushback of `complete` (lines 298-301): when the stop state is
ARGS and the draft's method is not among the declared methods of the path,
the state is pushed back to METHOD.  Subscripting with an unknown path is a
`KeyError`. -/
def pushbackArgs (spec : Spec) (sec : Sect) (d : Parsed) :
    Except CompErr Sect :=
  match sec with
  | .ARGS =>
    match lookupStr spec.paths d.path with
    | none => .error (.keyErr d.path)
    | some pm =>
      if !((sortStrs (keysOf pm)).contains d.method) then .ok Sect.METHOD
      else .ok Sect.ARGS
  | s => .ok s

/-- The HEADER_VALUE pushback of `complete` (lines 303-308).  The membership
`arg not in parameters` compares a token with parameter dicts, so it is
always true. -/
def pushbackHeaderVal (spec : Spec) (sec : Sect) (arg : String) (d : Parsed) :
    Except CompErr Sect :=
  match sec with
  | .HEADER_VALUE =>
    match lookupStr spec.paths d.path with
    | none => .error (.keyErr d.path)
    | some pm =>
      match lookupStr pm d.method with
      | none => .ok Sect.HEADER_VALUE
      | some params =>
        let parameters := params.filter (fun p =>
          p.location == "header" && !((keysOf d.headers).contains p.name))
        if (keysOf d.headers).contains arg
            && !(parameters.any (strEqParam arg)) then
          .ok Sect.HEADER_KEY
        else .ok Sect.HEADER_VALUE
  | s => .ok s

/-- The QUERY_VALUE pushback of `complete` (lines 310-315).  Note the source
tests `arg in partial.headers.keys()` here (line 314), not the queries. -/
def pushbackQueryVal (spec : Spec) (sec : Sect) (arg : String) (d : Parsed) :
    Except CompErr Sect :=
  match sec with
  | .QUERY_VALUE =>
    match lookupStr spec.paths d.path with
    | none => .error (.keyErr d.path)
    | some pm =>
      match lookupStr pm d.method with
      | none => .ok Sect.QUERY_VALUE
      | some params =>
        let parameters := params.filter (fun p =>
          p.location == "query" && !((keysOf d.queries).contains p.name))
        if (keysOf d.headers).contains arg
            && !(parameters.any (strEqParam arg)) then
          .ok Sect.QUERY_KEY
        else .ok Sect.QUERY_VALUE
  | s => .ok s

/-- Subscripting `specification["paths"][p][m]` (lines 355, 359, 375, 379):
`KeyError` when the path or the method is unknown. -/
def getParams (spec : Spec) (p m : String) : Except CompErr (List Param) :=
  match lookupStr spec.paths p with
  | none => .error (.keyErr p)
  | some pm =>
    match lookupStr pm m with
    | none => .error (.keyErr m)
    | some params => .ok params

/-- The non-PATH branches of `complete` (lines 317-393), dispatched on the
section after the pushbacks. -/
def branchOut (spec : Spec) (sec : Sect) (d : Parsed) :
    Except CompErr CompOut :=
  match sec with
  | .PATH => .error .runtime
  | .ARGS =>
    match lookupStr spec.paths d.path with
    | none => .error (.keyErr d.path)
    | some pm =>
      let methods := sortStrs (keysOf pm)
      if d.method = "" then
        if methods.length = 1 then
          .ok (.single ("-X " ++ strUpper (methods.headD "")))
        else .ok (.tup ["-X"])
      else
        match lookupStr pm d.method with
        | none => .error (.keyErr d.method)
        | some params =>
          let result := params.foldl (fun acc p =>
            if p.location == "header"
                && !((keysOf d.headers).contains p.name) then acc ++ ["-H"]
            else if p.location == "path"
                && !((keysOf d.queries).contains p.name) then acc ++ ["-Q"]
            else acc) []
          .ok (.tup (sortedDedup result))
  | .METHOD =>
    match lookupStr spec.paths d.path with
    | none => .error (.keyErr d.path)
    | some pm =>
      let methods := keysOf pm
      let methods :=
        if d.method ≠ "" then
          methods.filter (fun m => strStartsWith m d.method)
        else methods
      .ok (.tup (sortStrs methods))
  | .HEADER_KEY =>
    if d.method = "" then .ok (.tup [])
    else
      match getParams spec d.path d.method with
      | .error e => .error e
      | .ok params =>
        let headerParams := params.filter (fun p => p.location == "header")
        if (keysOf d.headers).any
            (fun h => !(headerParams.any (strEqParam h))) then
          .ok (.tup [])
        else
          let missing := params.foldl (fun acc p =>
            if p.location == "header"
                && !((keysOf d.queries).contains p.name) then acc ++ [p.name]
            else acc) []
          .ok (.tup (sortedDedup missing))
  | .HEADER_VALUE => .ok (.tup [])
  | .QUERY_KEY =>
    if d.method = "" then .ok (.tup [])
    else
      match getParams spec d.path d.method with
      | .error e => .error e
      | .ok params =>
        let queryParams := params.filter (fun p => p.location == "query")
        if (keysOf d.headers).any
            (fun h => !(queryParams.any (strEqParam h))) then
          .ok (.tup [])
        else
          let missing := params.foldl (fun acc p =>
            if p.location == "query"
                && !((keysOf d.queries).contains p.name) then acc ++ [p.name]
            else acc) []
          .ok (.tup (sortedDedup missing))
  | .QUERY_VALUE => .ok (.tup [])
  | .DATA => .ok (.tup [])

/-- Models `AutoTool.complete` (lines 189-393): lenient loop, PATH completion
or pushbacks followed by the section branches. -/
def complete (spec : Spec) (args : List String) : Except CompErr CompOut :=
  match lenientLoop Sect.PATH "" "" Parsed.empty args with
  | (sec, _, arg, d) =>
    if sec = Sect.PATH then completePath spec args arg d
    else
      match pushbackArgs spec sec d with
      | .error e => .error e
      | .ok sec2 =>
        match pushbackHeaderVal spec sec2 arg d with
        | .error e => .error e
        | .ok sec3 =>
          match pushbackQueryVal spec sec3 arg d with
          | .error e => .error e
          | .ok sec4 => branchOut spec sec4 d

/-- A contract declaring exactly the paths `/dns` and `/status` (the contract
of the spec's completion examples). -/
def specDS : Spec := ⟨[("/dns", [("get", [])]), ("/status", [("get", [])])]⟩

/-- A contract declaring the single path `/dns/domains` with the single
method `get` (mirrors the test contract for method completion). -/
def specOneMethod : Spec :=
  ⟨[("/dns/domains", [("get", [Param.mk "Authorization" "header" true])])]⟩

/-- A contract with two header parameters for one path and method. -/
def specTwoHeaders : Spec :=
  ⟨[("/p", [("get", [Param.mk "A" "header" true, Param.mk "B" "header" false])])]⟩

/-- A contract exercising query, body and path-location parameters. -/
def specArgsFlags : Spec :=
  ⟨[("/p", [("get", [Param.mk "q1" "query" true, Param.mk "b" "body" true])]),
    ("/q", [("get", [Param.mk "v" "path" true])])]⟩

/-- The contract of the validator tests: `/dns/\x7bdomain\x7d/a` with method
`post` requiring the `Authorization` header. -/
def specVar : Spec :=
  ⟨[("/dns/\x7bdomain\x7d/a",
     [("post", [Param.mk "Authorization" "header" true])])]⟩

/-- Contract and draft for the undeclared-parameter witness: the draft
carries an undeclared header and is also missing the required header. -/
def specUndeclared : Spec :=
  ⟨[("/p", [("get", [Param.mk "A" "header" true])])]⟩

/-- A strictly-parsed draft for `/p` with method `get` and an undeclared
header `bad`. -/
def draftUndeclared : Parsed := ⟨"/p", [], "get", [("bad", "1")], [], ""⟩

end Autolib

namespace Autolib

/-- A single strict parsing step fails exactly on a bad token: one that is
unrecognized in the (possibly promoted) ARGS state, or one consumed in METHOD
while the method is already non-empty. -/
theorem parseStep_error_iff (st : Sect × String × Parsed) (a : String) :
    (∃ e, parseStep st a = .error e) ↔ badAt st a = true := by
  obtain ⟨sec, key, r⟩ := st
  cases h : promote sec a <;>
    simp only [parseStep, badAt, h]
  case PATH => split <;> simp
  case ARGS =>
    by_cases h1 : a = "-X" <;> by_cases h2 : a = "-H" <;>
      by_cases h3 : a = "-Q" <;> by_cases h4 : a = "-D" <;>
      simp [h1, h2, h3, h4, flagToken]
  case METHOD => by_cases hm : r.method = "" <;> simp [hm]
  all_goals simp

/-- Running the strict loop from any state fails exactly when some token of
the list is bad for the machine state reached by the tokens before it. -/
theorem runAux_error_iff (args : List String) : ∀ st : Sect × String × Parsed,
    (∃ e, runAux st args = .error e) ↔
    (∃ i, ∃ h : i < args.length, ∃ st2,
      runAux st (args.take i) = .ok st2 ∧
      badAt st2 (args.get ⟨i, h⟩) = true) := by
  induction args with
  | nil =>
    intro st
    constructor
    · rintro ⟨e, he⟩
      simp [runAux] at he
    · rintro ⟨i, h, _⟩
      exact absurd h (Nat.not_lt_zero i)
  | cons a rest ih =>
    intro st
    cases hps : parseStep st a with
    | error e =>
      constructor
      · intro _
        refine ⟨0, Nat.succ_pos _, st, ?_, ?_⟩
        · simp [runAux]
        · have hb := (parseStep_error_iff st a).mp ⟨e, hps⟩
          simpa using hb
      · intro _
        exact ⟨e, by simp [runAux, hps]⟩
    | ok st2 =>
      have hrw : runAux st (a :: rest) = runAux st2 rest := by
        simp [runAux, hps]
      constructor
      · rintro ⟨e, he⟩
        rw [hrw] at he
        obtain ⟨i, h, st3, hrun, hbad⟩ := (ih st2).mp ⟨e, he⟩
        refine ⟨i + 1, Nat.succ_lt_succ h, st3, ?_, ?_⟩
        · simpa [runAux, hps] using hrun
        · simpa using hbad
      · rintro ⟨i, h, st3, hrun, hbad⟩
        cases i with
        | zero =>
          simp [runAux] at hrun
          subst hrun
          obtain ⟨e, he⟩ := (parseStep_error_iff st a).mpr (by simpa using hbad)
          rw [hps] at he
          cases he
        | succ j =>
          have hrun2 : runAux st2 (rest.take j) = .ok st3 := by
            simpa [runAux, hps] using hrun
          have h2 : j < rest.length := Nat.lt_of_succ_lt_succ h
          obtain ⟨e, he⟩ :=
            (ih st2).mpr ⟨j, h2, st3, hrun2, by simpa using hbad⟩
          exact ⟨e, by rw [hrw]; exact he⟩

/-- C9: In strict mode, `parse` raises a Parse error if and only if some
consumed token is, at the point it is consumed, an unrecognized token in the
ARGS state (not one of `-X`, `-H`, `-Q`, `-D`) or sets the method while the
method is already non-empty; on every other token list `parse` returns a
draft without raising (an `Except` value that is not an error is `.ok`). -/
theorem parse_raises_iff_bad_token (args : List String) :
    (∃ e, parse args = .error e) ↔
    (∃ i, ∃ h : i < args.length, ∃ st,
      runAux (Sect.PATH, "", Parsed.empty) (args.take i) = .ok st ∧
      badAt st (args.get ⟨i, h⟩) = true) := by
  have hiff := runAux_error_iff args (Sect.PATH, "", Parsed.empty)
  constructor
  · rintro ⟨e, he⟩
    apply hiff.mp
    unfold parse at he
    cases h2 : runAux (Sect.PATH, "", Parsed.empty) args with
    | error e2 => exact ⟨e2, rfl⟩
    | ok st => rw [h2] at he; cases he
  · intro hb
    obtain ⟨e, he⟩ := hiff.mpr hb
    exact ⟨e, by unfold parse; rw [he]⟩

/-- C1: the claim says `complete` never raises; the code can raise.  With the
contract declaring `/dns` and `/status`, `complete ["status", ""]` hits the
`RuntimeError` on line 295 (the repository's own test expects the empty tuple
there), and a token list whose path is not in the contract and whose loop
stops in ARGS hits a `KeyError` on line 299. -/
theorem complete_can_raise :
    complete specDS ["status", ""] = .error .runtime ∧
    complete specDS ["bogus", "-H", "x", "y"] = .error (.keyErr "/bogus") :=
  ⟨rfl, rfl⟩

/-- C2: the claim says a stop in ARGS with no method set yields exactly
`("-X",)`.  In the code the pushback on lines 298-301 reclassifies that state
to METHOD (the empty method is never among the declared methods), so the
METHOD branch returns the declared method names instead: here `("get",)`,
never `("-X",)` (the repository's own test expects `("-X",)`). -/
theorem complete_args_no_method_returns_methods :
    complete specOneMethod ["dns", "domains", "-"] = .ok (.tup ["get"]) ∧
    CompOut.tup ["get"] ≠ CompOut.tup ["-X"] :=
  ⟨rfl, by decide⟩

/-- C3: with contract paths `/dns` and `/status`, the first two examples hold
(`complete [""]` gives `("dns", "status")` and `complete ["status"]` gives
`("status",)`), but `complete ["status", ""]` raises `RuntimeError` instead
of returning the empty sequence the claim (and the repository's test)
expects. -/
theorem complete_dns_status_examples :
    complete specDS [""] = .ok (.tup ["dns", "status"]) ∧
    complete specDS ["status"] = .ok (.tup ["status"]) ∧
    complete specDS ["status", ""] = .error .runtime :=
  ⟨rfl, rfl, rfl⟩

/-- C4: the claim says a bare `=` token is fused with its neighbours before
grammar consumption.  No such normalization exists in the code: `=` is
consumed in PATH as a variable token with empty name and value, so
`parse ["k", "=", "v"]` and `parse ["k=v"]` produce different drafts. -/
theorem parse_no_equals_fusion :
    parse ["k", "=", "v"] =
      .ok ⟨"/k/\x7b\x7d/v", [("", "")], "", [], [], ""⟩ ∧
    parse ["k=v"] = .ok ⟨"/\x7bk\x7d", [("k", "v")], "", [], [], ""⟩ ∧
    (⟨"/k/\x7b\x7d/v", [("", "")], "", [], [], ""⟩ : Parsed) ≠
      ⟨"/\x7bk\x7d", [("k", "v")], "", [], [], ""⟩ :=
  ⟨rfl, rfl, by decide⟩

/-- C5: the claim says a HEADER_KEY stop with known method returns the sorted
header parameters not yet in `headers`.  In the code the guard on lines
354-356 compares header names against parameter dicts (always unequal), so
any already-captured header yields the empty tuple (here instead of
`("B",)`); and line 360 filters against `queries` instead of `headers`, so a
query key shadows a header suggestion (here `("B",)` instead of
`("A", "B")`). -/
theorem complete_header_key_divergence :
    complete specTwoHeaders ["p", "-X", "get", "-H", "A", "v", "-H"] =
      .ok (.tup []) ∧
    complete specTwoHeaders ["p", "-X", "get", "-Q", "A", "v", "-H"] =
      .ok (.tup ["B"]) :=
  ⟨rfl, rfl⟩

/-- C6: the claim says an ARGS stop with known method suggests `-Q` for
missing query parameters and `-D` for a declared body parameter.  The code
(lines 329-340) tests `parameter["in"] == "path"` for `-Q` and never emits
`-D` (the body case is a TODO): a path with a required query and body
parameter yields the empty tuple, and a path-location parameter wrongly
yields `("-Q",)`. -/
theorem complete_args_flags_divergence :
    complete specArgsFlags ["p", "-X", "get"] = .ok (.tup []) ∧
    complete specArgsFlags ["q", "-X", "get"] = .ok (.tup ["-Q"]) :=
  ⟨rfl, rfl⟩

/-- C7: the claim says an empty `path_variables` entry raises "path variable
not set" before any method or parameter check.  The code's `verify` has no
path-variable check at all: for the draft of
`["dns", "domain=", "a", "-X", "post"]` (empty `domain`) it proceeds to the
parameter checks and raises the missing-required-header error instead. -/
theorem verify_no_path_variable_check :
    parse ["dns", "domain=", "a", "-X", "post"] =
      .ok ⟨"/dns/\x7bdomain\x7d/a", [("domain", "")], "post", [], [], ""⟩ ∧
    verify specVar
        ⟨"/dns/\x7bdomain\x7d/a", [("domain", "")], "post", [], [], ""⟩ =
      .error (.requiredMissing "header" "Authorization") :=
  ⟨rfl, rfl⟩

/-- C8: the claim says an empty method raises the distinct "method not set"
error before the method-supported check.  The code has no such check: a draft
with empty method (and a missing required header) falls into the
method-not-supported error ("Path ... does not define method .") on line 138
(the repository's own test expects "Method has not been set."). -/
theorem verify_no_method_not_set_check :
    parse ["dns", "domain=example.org", "a"] =
      .ok ⟨"/dns/\x7bdomain\x7d/a", [("domain", "example.org")], "", [], [], ""⟩ ∧
    verify specVar
        ⟨"/dns/\x7bdomain\x7d/a", [("domain", "example.org")], "", [], [], ""⟩ =
      .error (.methodNotDefined "/dns/\x7bdomain\x7d/a" "") :=
  ⟨rfl, rfl⟩

/-- C10: when the draft's path and method resolve in the contract and the
draft's headers (or queries) contain a key not declared as a header (or
query) parameter, `verify` raises — and the raised error is the
undeclared-parameter one, i.e. the rejection happens before the
required-parameter and body checks (the hypotheses allow required parameters
to be missing as well). -/
theorem verify_rejects_undeclared_params
    (spec : Spec) (d : Parsed)
    (pathItem : List (String × List Param)) (params : List Param)
    (hp : lookupStr spec.paths d.path = some pathItem)
    (hm : lookupStr pathItem d.method = some params)
    (hbad : (∃ k ∈ keysOf d.headers, declaredAs params "header" k = false)
          ∨ (∃ k ∈ keysOf d.queries, declaredAs params "query" k = false)) :
    ∃ k, verify spec d = .error (.headerNotTaken k)
       ∨ verify spec d = .error (.queryNotTaken k) := by
  have hv : verify spec d =
      (match (keysOf d.headers).find? (fun k => !declaredAs params "header" k) with
       | some k => .error (.headerNotTaken k)
       | none =>
         match (keysOf d.queries).find? (fun k => !declaredAs params "query" k) with
         | some k => .error (.queryNotTaken k)
         | none => requiredCheck params d) := by
    simp only [verify, hp, hm]
  cases hh : (keysOf d.headers).find? (fun k => !declaredAs params "header" k) with
  | some k =>
    refine ⟨k, Or.inl ?_⟩
    rw [hv, hh]
  | none =>
    have hhd : ∀ k ∈ keysOf d.headers, declaredAs params "header" k = true := by
      intro k hk
      have hne := List.find?_eq_none.mp hh k hk
      simpa using hne
    have hq : ∃ k ∈ keysOf d.queries, declaredAs params "query" k = false := by
      rcases hbad with h | h
      · obtain ⟨k, hk, hf⟩ := h
        rw [hhd k hk] at hf
        cases hf
      · exact h
    obtain ⟨k, hk, hf⟩ := hq
    have hs : ((keysOf d.queries).find? (fun k => !declaredAs params "query" k)).isSome :=
      List.find?_isSome.mpr ⟨k, hk, by simp [hf]⟩
    obtain ⟨k2, hk2⟩ := Option.isSome_iff_exists.mp hs
    refine ⟨k2, Or.inr ?_⟩
    rw [hv, hh, hk2]

/-- Witness for C10 at a concrete contract and draft: the draft carries the
undeclared header `bad` and is also missing the required header `A`, yet the
raised error is the undeclared-header one. -/
theorem verify_rejects_undeclared_params_witness :
    ∃ k, verify specUndeclared draftUndeclared = .error (.headerNotTaken k)
       ∨ verify specUndeclared draftUndeclared = .error (.queryNotTaken k) :=
  verify_rejects_undeclared_params specUndeclared draftUndeclared _ _
    rfl rfl (Or.inl ⟨"bad", by decide, by decide⟩)

/-- Sanity: the spec's section-8 parse example. -/
theorem parse_example_dns_domains :
    parse ["dns", "domains", "-X", "GET", "-H", "Authorization", "Bearer X"] =
      .ok ⟨"/dns/domains", [], "get", [("Authorization", "Bearer X")], [], ""⟩ :=
  rfl

/-- Sanity: the spec's section-8 path-variable parse example. -/
theorem parse_example_path_variable :
    parse ["dns", "domain="] =
      .ok ⟨"/dns/\x7bdomain\x7d", [("domain", "")], "", [], [], ""⟩ :=
  rfl

end Autolib
